import Mathlib

/-!
Shallow embedding of the ledger and credential logic of `src/bot.py`
(a chat-economy bot backed by a tabular ledger store and a SQLite token
table), together with theorems settling the specification claims.

Modelling conventions:
* A sheet cell holding a number is an `Int`; a data row keeps its
  `Username` cell separately from the numeric columns, which are an
  association list from column name to value (`record.get(field, 0)`
  becomes lookup-with-default-0).
* The store call that can fail (`sheet.get_all_records()` inside
  `get_user_info`, caught and turned into `None`) is modelled by a
  boolean `ok` parameter: `ok = false` is the exception path.
* Python truthiness of `get_user_info`'s result (`None` and `0` are both
  falsy in `transfer_to_user`'s `if not gifter_points or not
  receiver_points`) is modelled exactly: the `none` case and the
  `= 0` case take the same branch.
* `str.lower()` is `toLowerStr` (character-wise `Char.toLower`), and
  `str.lstrip("@")` is `stripMention` (drop every leading `'@'`).
* `sheet.find(username)` in `update_user_fields` is an exact,
  case-sensitive cell match; it is modelled as locating the first data
  row whose `Username` cell equals the argument exactly.
-/

/-- One data row of the ledger sheet: the `Username` cell plus the numeric
columns as an association list from column name to value. -/
structure Rec where
  username : String
  fields : List (String × Int)
deriving DecidableEq

/-- The ledger sheet: the header row and the data rows, in sheet order. -/
structure Sheet where
  headers : List String
  rows : List Rec
deriving DecidableEq

/-- Python `s.lower()` on the characters of a string. -/
def toLowerStr (s : String) : String :=
  ⟨s.data.map Char.toLower⟩

/-- Python `s.lstrip("@")`: remove every leading mention marker. -/
def stripMention (s : String) : String :=
  ⟨s.data.dropWhile (fun c => c == '@')⟩

/-- The receiver-name normalization of `transfer_to_user` (bot.py line 206):
`username.lstrip("@").lower()`. -/
def normalizeRecv (rarg : String) : String :=
  toLowerStr (stripMention rarg)

/-- The case-insensitive username comparison of `get_user_info`
(bot.py line 53): `record.get("Username", "").lower() == username.lower()`. -/
def sameKey (rowName username : String) : Bool :=
  toLowerStr rowName == toLowerStr username

/-- `record.get(field_name, 0)`: first value stored under the column name,
defaulting to 0. -/
def getField (fields : List (String × Int)) (f : String) : Int :=
  match fields with
  | [] => 0
  | (g, w) :: rest => if g == f then w else getField rest f

/-- The pure part of `get_user_info` (bot.py lines 52-55): scan the records
in order for a case-insensitive username match; the matched record's field
(default 0), or 0 when the user is absent. -/
def readField (s : Sheet) (username field : String) : Int :=
  match s.rows.find? (fun r => sameKey r.username username) with
  | some r => getField r.fields field
  | none => 0

/-- `get_user_info(username, field_name)` (bot.py lines 33-55): `none` models
the exception path (`return None`); otherwise the scan of `readField`. -/
def get_user_info (username field_name : String) (ok : Bool) (s : Sheet) :
    Option Int :=
  if ok then some (readField s username field_name) else none

/-- `sheet.update_cell` on one row's column: replace the first entry stored
under the column name (append if the column cell was never materialized). -/
def setField (fields : List (String × Int)) (f : String) (v : Int) :
    List (String × Int) :=
  match fields with
  | [] => [(f, v)]
  | (g, w) :: rest =>
      if g == f then (f, v) :: rest else (g, w) :: setField rest f v

/-- The write loop of `update_user_fields` (bot.py lines 72-75): for each
requested update, write the cell only when the field is a header column,
silently skipping unknown fields. -/
def applyUpdates (headers : List String) (fields updates : List (String × Int)) :
    List (String × Int) :=
  match updates with
  | [] => fields
  | (f, v) :: rest =>
      if f ∈ headers then applyUpdates headers (setField fields f v) rest
      else applyUpdates headers fields rest

/-- `sheet.find(username)` followed by the write loop: locate the first row
whose `Username` cell equals `username` exactly (case-sensitive), apply the
updates to it; `none` when no row matches. -/
def updateRows (username : String) (headers : List String)
    (updates : List (String × Int)) : List Rec → Option (List Rec)
  | [] => none
  | r :: rest =>
      if r.username == username then
        some ({ r with fields := applyUpdates headers r.fields updates } :: rest)
      else
        match updateRows username headers updates rest with
        | none => none
        | some rest2 => some (r :: rest2)

/-- `update_user_fields(username, updates)` (bot.py lines 58-76): `false`
with the sheet unchanged when `sheet.find` locates no row (or raises);
`true` with the located row rewritten otherwise. -/
def update_user_fields (username : String) (updates : List (String × Int))
    (s : Sheet) : Sheet × Bool :=
  match updateRows username s.headers updates s.rows with
  | none => (s, false)
  | some rows2 => ({ s with rows := rows2 }, true)

/-- The observable outcome of the `!buy` command handler. -/
inductive BuyResult
  | balanceReadFailed
  | insufficientFunds
  | updateFailed
  | success (newTickets : Int)
deriving DecidableEq

/-- `buy_tickets(ctx, n)` (bot.py lines 171-198): read `Tokens` and
`Tickets`; fail if either read errored; reject when `points < 52000 * n`
(no check that `n > 0` exists in the code); otherwise write
`Tokens := points - 52000 * n` and `Tickets := tickets + n` in one
`update_user_fields` call and report the new ticket count. -/
def buy_tickets (username : String) (n : Int) (ok : Bool) (s : Sheet) :
    Sheet × BuyResult :=
  match get_user_info username "Tokens" ok s,
        get_user_info username "Tickets" ok s with
  | some points, some tickets =>
      if points < 52000 * n then
        (s, BuyResult.insufficientFunds)
      else
        match update_user_fields username
            [("Tokens", points - 52000 * n), ("Tickets", tickets + n)] s with
        | (s2, true) => (s2, BuyResult.success (tickets + n))
        | (s2, false) => (s2, BuyResult.updateFailed)
  | _, _ => (s, BuyResult.balanceReadFailed)

/-- The observable outcome of the `!transfer` command handler. -/
inductive TransferResult
  | selfTransfer
  | balanceUnavailable
  | invalidAmount
  | insufficientFunds
  | updateFailed
  | success
deriving DecidableEq

/-- `transfer_to_user(ctx, n, username)` (bot.py lines 200-236), with the
checks in source order: self-transfer on the normalized receiver name;
`if not gifter_points or not receiver_points` (a failed read `none` and a
read of `0` both take the "Could not fetch balances" branch); `n <= 0`;
`gifter_points < n`; then debit the sender and, only if that write
succeeded (`and` short-circuits), credit the receiver with the pre-read
balance plus `n`. -/
def transfer_to_user (gifter rarg : String) (n : Int) (ok : Bool) (s : Sheet) :
    Sheet × TransferResult :=
  if toLowerStr gifter == normalizeRecv rarg then
    (s, TransferResult.selfTransfer)
  else
    match get_user_info gifter "Tokens" ok s,
          get_user_info (normalizeRecv rarg) "Tokens" ok s with
    | some gp, some rp =>
        if gp == 0 || rp == 0 then
          (s, TransferResult.balanceUnavailable)
        else if n ≤ 0 then
          (s, TransferResult.invalidAmount)
        else if gp < n then
          (s, TransferResult.insufficientFunds)
        else
          match update_user_fields gifter [("Tokens", gp - n)] s with
          | (s1, false) => (s1, TransferResult.updateFailed)
          | (s1, true) =>
              match update_user_fields (normalizeRecv rarg)
                  [("Tokens", rp + n)] s1 with
              | (s2, true) => (s2, TransferResult.success)
              | (s2, false) => (s2, TransferResult.updateFailed)
    | _, _ => (s, TransferResult.balanceUnavailable)

/-- One row of the `tokens` SQLite table
(`tokens(user_id TEXT PRIMARY KEY, token TEXT NOT NULL, refresh TEXT NOT NULL)`,
bot.py line 125). -/
structure TokenRow where
  user_id : String
  token : String
  refresh : String
deriving DecidableEq

/-- The `INSERT ... ON CONFLICT(user_id) DO UPDATE SET token = excluded.token,
refresh = excluded.refresh` statement of `Bot.add_token` (bot.py lines
99-109): overwrite the existing row for `user_id` in place, or append a
fresh row when none exists. -/
def upsert (db : List TokenRow) (uid tok ref : String) : List TokenRow :=
  match db with
  | [] => [⟨uid, tok, ref⟩]
  | r :: rest =>
      if r.user_id == uid then ⟨uid, tok, ref⟩ :: rest
      else r :: upsert rest uid tok ref

/-- `Bot.load_tokens` (bot.py lines 114-121): `SELECT * from tokens` — the
observable state of the token table is the table itself. -/
def load_tokens (db : List TokenRow) : List TokenRow := db

/-- The data-model invariant of §3 of the spec: `username` is a unique,
case-insensitive key — no two rows share a case-folded username. -/
def PairwiseKey (rows : List Rec) : Prop :=
  rows.Pairwise (fun a b => toLowerStr a.username ≠ toLowerStr b.username)

instance (rows : List Rec) : Decidable (PairwiseKey rows) := by
  unfold PairwiseKey
  infer_instance

/-- The header row the spec (§6) assumes: at least `Username`, `Tokens`,
`Tickets`. -/
def stdHeaders : List String := ["Username", "Tokens", "Tickets"]

/-- A ledger with one user `bob` holding 100000 tokens and 0 tickets (the
worked scenario of §8 of the spec). -/
def sheetRich : Sheet :=
  ⟨stdHeaders, [⟨"bob", [("Tokens", 100000), ("Tickets", 0)]⟩]⟩

/-- `sheetRich` after a successful `!buy 1`. -/
def sheetRichAfterBuy : Sheet :=
  ⟨stdHeaders, [⟨"bob", [("Tokens", 48000), ("Tickets", 1)]⟩]⟩

/-- `sheetRich` after the write that `!buy -1` issues. -/
def sheetRichAfterNegBuy : Sheet :=
  ⟨stdHeaders, [⟨"bob", [("Tokens", 152000), ("Tickets", -1)]⟩]⟩

/-- A ledger where `bob` cannot afford a single ticket. -/
def sheetPoor : Sheet :=
  ⟨stdHeaders, [⟨"bob", [("Tokens", 10), ("Tickets", 0)]⟩]⟩

/-- A row stored under the capitalized spelling `Bob`. -/
def recBob : Rec := ⟨"Bob", [("Tokens", 5), ("Tickets", 2)]⟩

/-- A ledger whose only row is stored under the spelling `Bob`. -/
def sheetBobCased : Sheet := ⟨stdHeaders, [recBob]⟩

/-- A two-user ledger: `alice` with 10 tokens, `bob` with 5 (the transfer
scenario of §8 of the spec). -/
def sheetTwo : Sheet :=
  ⟨stdHeaders,
    [⟨"alice", [("Tokens", 10), ("Tickets", 0)]⟩,
      ⟨"bob", [("Tokens", 5), ("Tickets", 0)]⟩]⟩

/-- `sheetTwo` after `alice` transfers 3 tokens to `bob`. -/
def sheetTwoAfter : Sheet :=
  ⟨stdHeaders,
    [⟨"alice", [("Tokens", 7), ("Tickets", 0)]⟩,
      ⟨"bob", [("Tokens", 8), ("Tickets", 0)]⟩]⟩

/-- A ledger where the sender is rich and the receiver is present with a
balance of exactly 0. -/
def sheetZeroRecv : Sheet :=
  ⟨stdHeaders,
    [⟨"alice", [("Tokens", 500000), ("Tickets", 0)]⟩,
      ⟨"bob", [("Tokens", 0), ("Tickets", 0)]⟩]⟩

/-- A one-user ledger: `alice` with 100 tokens; any other user is absent. -/
def sheetAliceOnly : Sheet :=
  ⟨stdHeaders, [⟨"alice", [("Tokens", 100), ("Tickets", 0)]⟩]⟩

/-- A one-record token table. -/
def db0 : List TokenRow := [⟨"u1", "a1", "r1"⟩]

theorem find_mid {α : Type} (p : α → Bool) (l1 l2 : List α) (r : α)
    (h1 : ∀ x ∈ l1, p x = false) (hr : p r = true) :
    (l1 ++ r :: l2).find? p = some r := by
  induction l1 with
  | nil => simp [List.find?, hr]
  | cons a l ih =>
      have ha := h1 a (List.mem_cons_self a l)
      simp only [List.cons_append, List.find?, ha]
      exact ih (fun x hx => h1 x (List.mem_cons_of_mem a hx))

theorem find_swap {α : Type} (p : α → Bool) (l1 l2 : List α) (A B : α)
    (hA : p A = false) (hB : p B = false) :
    (l1 ++ A :: l2).find? p = (l1 ++ B :: l2).find? p := by
  induction l1 with
  | nil => simp [List.find?, hA, hB]
  | cons a l ih => cases hpa : p a <;> simp [List.find?, hpa, ih]

theorem getField_setField_self (fields : List (String × Int)) (f : String)
    (v : Int) : getField (setField fields f v) f = v := by
  induction fields with
  | nil => simp [setField, getField]
  | cons p rest ih =>
      obtain ⟨g, w⟩ := p
      by_cases h : g = f
      · subst h; simp [setField, getField]
      · simp [setField, getField, h, ih]

theorem getField_setField_ne (fields : List (String × Int)) (f g : String)
    (v : Int) (h : f ≠ g) :
    getField (setField fields f v) g = getField fields g := by
  induction fields with
  | nil => simp [setField, getField, h]
  | cons p rest ih =>
      obtain ⟨a, w⟩ := p
      by_cases haf : a = f
      · subst haf; simp [setField, getField, h]
      · simp [setField, getField, haf, ih]

theorem updateRows_eq_some (username : String) (headers : List String)
    (updates : List (String × Int)) :
    ∀ (rows rows2 : List Rec),
      updateRows username headers updates rows = some rows2 →
      ∃ l1 A l2, rows = l1 ++ A :: l2 ∧
        rows2 =
          l1 ++ { A with fields := applyUpdates headers A.fields updates } :: l2 ∧
        A.username = username ∧ ∀ x ∈ l1, x.username ≠ username := by
  intro rows
  induction rows with
  | nil => intro rows2 h; simp [updateRows] at h
  | cons r rest ih =>
      intro rows2 h
      by_cases hr : r.username = username
      · have hcond : (r.username == username) = true := beq_iff_eq.mpr hr
        simp only [updateRows] at h
        rw [if_pos hcond] at h
        have h2 := Option.some.inj h
        exact ⟨[], r, rest, by simp, by simp [← h2], hr, by simp⟩
      · simp only [updateRows, beq_iff_eq, hr, if_false] at h
        rcases hrec : updateRows username headers updates rest with _ | rest2
        · rw [hrec] at h; simp at h
        · rw [hrec] at h
          simp only [Option.some.injEq] at h
          obtain ⟨l1, A, l2, h1, h2, h3, h4⟩ := ih rest2 hrec
          refine ⟨r :: l1, A, l2, by simp [h1], by simp [← h, h2], h3, ?_⟩
          intro x hx
          rcases List.mem_cons.mp hx with hx | hx
          · subst hx; exact hr
          · exact h4 x hx

theorem updateRows_eq_none (username : String) (headers : List String)
    (updates : List (String × Int)) :
    ∀ rows : List Rec, (∀ r ∈ rows, r.username ≠ username) →
      updateRows username headers updates rows = none := by
  intro rows
  induction rows with
  | nil => intro _; simp [updateRows]
  | cons r rest ih =>
      intro h
      have hr : r.username ≠ username := h r (List.mem_cons_self r rest)
      have hrest := ih (fun x hx => h x (List.mem_cons_of_mem r hx))
      simp [updateRows, hr, hrest]

theorem pairwiseKey_congr (l1 l2 : List Rec) (A A' : Rec)
    (h : A'.username = A.username) (hp : PairwiseKey (l1 ++ A :: l2)) :
    PairwiseKey (l1 ++ A' :: l2) := by
  unfold PairwiseKey at *
  rw [List.pairwise_append] at hp ⊢
  obtain ⟨h1, h2, h3⟩ := hp
  refine ⟨h1, ?_, ?_⟩
  · rw [List.pairwise_cons] at h2 ⊢
    exact ⟨fun b hb => by rw [h]; exact h2.1 b hb, h2.2⟩
  · intro a ha b hb
    rcases List.mem_cons.mp hb with hb | hb
    · subst hb; rw [h]; exact h3 a ha A (List.mem_cons_self _ _)
    · exact h3 a ha b (List.mem_cons.mpr (Or.inr hb))

theorem update_spec (s s' : Sheet) (u : String) (upd : List (String × Int))
    (hwf : PairwiseKey s.rows)
    (hu : update_user_fields u upd s = (s', true)) :
    s'.headers = s.headers ∧ PairwiseKey s'.rows ∧
    ∃ F, (∀ f, readField s u f = getField F f) ∧
      (∀ f, readField s' u f = getField (applyUpdates s.headers F upd) f) ∧
      (∀ w f, toLowerStr w ≠ toLowerStr u → readField s' w f = readField s w f) := by
  unfold update_user_fields at hu
  rcases hm : updateRows u s.headers upd s.rows with _ | rows2
  · rw [hm] at hu; simp at hu
  · rw [hm] at hu
    have hs' : s' = { s with rows := rows2 } := by
      have := (Prod.mk.injEq _ _ _ _).mp hu
      exact this.1.symm
    obtain ⟨l1, A, l2, hrows, hrows2, hA, hl1⟩ :=
      updateRows_eq_some u s.headers upd s.rows rows2 hm
    have hwf' : PairwiseKey s.rows := hwf
    rw [hrows] at hwf'
    have hcross :
        ∀ x ∈ l1, toLowerStr x.username ≠ toLowerStr A.username := by
      intro x hx
      have := (List.pairwise_append.mp hwf').2.2 x hx A (List.mem_cons_self _ _)
      exact this
    have hl1false : ∀ x ∈ l1, sameKey x.username u = false := by
      intro x hx
      have := hcross x hx
      rw [hA] at this
      exact beq_eq_false_iff_ne.mpr (by
        intro hEq
        exact this hEq)
    have hAtrue : sameKey A.username u = true := by
      unfold sameKey
      rw [hA]
      exact beq_self_eq_true _
    have hA'username :
        ({ A with fields := applyUpdates s.headers A.fields upd } : Rec).username
          = A.username := rfl
    refine ⟨by rw [hs'], ?_, A.fields, ?_, ?_, ?_⟩
    · rw [hs']
      show PairwiseKey rows2
      rw [hrows2]
      exact pairwiseKey_congr l1 l2 A _ hA'username hwf'
    · intro f
      unfold readField
      rw [hrows, find_mid _ l1 l2 A hl1false hAtrue]
    · intro f
      unfold readField
      rw [hs']
      show (match rows2.find? (fun r => sameKey r.username u) with
            | some r => getField r.fields f
            | none => 0) = _
      rw [hrows2, find_mid _ l1 l2 _ hl1false (by rw [← hAtrue])]
    · intro w f hw
      unfold readField
      rw [hs']
      show (match rows2.find? (fun r => sameKey r.username w) with
            | some r => getField r.fields f
            | none => 0) =
           (match s.rows.find? (fun r => sameKey r.username w) with
            | some r => getField r.fields f
            | none => 0)
      have hAw : sameKey A.username w = false := by
        rw [hA]
        exact beq_eq_false_iff_ne.mpr (fun hEq => hw hEq.symm)
      have hA'w :
          sameKey ({ A with fields := applyUpdates s.headers A.fields upd } :
            Rec).username w = false := by
        rw [hA'username]; exact hAw
      rw [hrows2, hrows, find_swap _ l1 l2 _ A hA'w hAw]

/-- Claim C2: for every quantity such that the user's tokens are below
52000 times the quantity, `buy` fails with the insufficient-funds rejection
and the ledger state is unchanged (the reads having succeeded). -/
theorem C2_buy_insufficient_funds (s : Sheet) (username : String) (n : Int)
    (h : readField s username "Tokens" < 52000 * n) :
    buy_tickets username n true s = (s, BuyResult.insufficientFunds) := by
  simp [buy_tickets, get_user_info, h]

theorem C2_witness :
    readField sheetPoor "bob" "Tokens" < 52000 * 1 ∧
    buy_tickets "bob" 1 true sheetPoor = (sheetPoor, BuyResult.insufficientFunds) :=
  ⟨by decide, C2_buy_insufficient_funds sheetPoor "bob" 1 (by decide)⟩

/-- Claim C4 (the code lacks the check the claim asserts): with `bob`
holding 100000 tokens and 0 tickets, `buy_tickets` on quantity `-1` is not
rejected — the insufficient-funds guard `100000 < 52000 * (-1)` is false,
so the handler issues the ledger write, leaving 152000 tokens and `-1`
tickets, and reports success. -/
theorem C4_negative_quantity_accepted :
    buy_tickets "bob" (-1) true sheetRich =
      (sheetRichAfterNegBuy, BuyResult.success (-1)) ∧
    readField sheetRichAfterNegBuy "bob" "Tokens" = 152000 ∧
    readField sheetRichAfterNegBuy "bob" "Tickets" = -1 := by decide

/-- Claim C5: whenever the sender's case-folded name equals the receiver
argument after normalization (strip leading mention markers, case-fold),
`transfer` fails with the self-transfer rejection and the ledger is
untouched, regardless of any balance. -/
theorem C5_self_transfer_rejected (gifter rarg : String) (n : Int) (ok : Bool)
    (s : Sheet) (h : toLowerStr gifter = normalizeRecv rarg) :
    transfer_to_user gifter rarg n ok s = (s, TransferResult.selfTransfer) := by
  simp [transfer_to_user, h]

theorem C5_witness :
    toLowerStr "Bob" = normalizeRecv "@bOB" ∧
    transfer_to_user "Bob" "@bOB" 5 true sheetRich =
      (sheetRich, TransferResult.selfTransfer) :=
  ⟨by decide, C5_self_transfer_rejected "Bob" "@bOB" 5 true sheetRich (by decide)⟩

/-- Claim C6 as stated is false: with `alice` holding 100 tokens and `bob`
absent from the ledger, `transfer(alice, bob, -5)` is rejected with the
balance-unavailable reply, not the invalid-amount one — the Python-falsy
balance check runs before the `n <= 0` check. -/
theorem C6_counterexample :
    transfer_to_user "alice" "bob" (-5) true sheetAliceOnly =
      (sheetAliceOnly, TransferResult.balanceUnavailable) ∧
    TransferResult.balanceUnavailable ≠ TransferResult.invalidAmount := by
  decide

/-- Claim C6 (amended): for every sender and receiver that are distinct
after normalization and whose token-balance reads both succeed with a
nonzero value, every amount below or equal to 0 is rejected with the
invalid-amount reply and no ledger write is issued. -/
theorem C6_invalid_amount (gifter rarg : String) (n : Int) (s : Sheet)
    (hself : toLowerStr gifter ≠ normalizeRecv rarg)
    (hg : readField s gifter "Tokens" ≠ 0)
    (hr : readField s (normalizeRecv rarg) "Tokens" ≠ 0)
    (hn : n ≤ 0) :
    transfer_to_user gifter rarg n true s = (s, TransferResult.invalidAmount) := by
  simp [transfer_to_user, get_user_info, hself, hg, hr, hn]

theorem C6_witness :
    toLowerStr "alice" ≠ normalizeRecv "@Bob" ∧
    readField sheetTwo "alice" "Tokens" ≠ 0 ∧
    readField sheetTwo (normalizeRecv "@Bob") "Tokens" ≠ 0 ∧
    (-2 : Int) ≤ 0 ∧
    transfer_to_user "alice" "@Bob" (-2) true sheetTwo =
      (sheetTwo, TransferResult.invalidAmount) :=
  ⟨by decide, by decide, by decide, by decide,
    C6_invalid_amount "alice" "@Bob" (-2) sheetTwo (by decide) (by decide)
      (by decide) (by decide)⟩

/-- Claim C7 as stated is false: with the row stored under the spelling
`Bob`, the balance read for the case-variant `bob` addresses that row
(returning its 5 tokens) while the field write for `bob` locates no row at
all — it fails and changes nothing, so read and write disagree on which
row the username denotes. -/
theorem C7_counterexample :
    readField sheetBobCased "bob" "Tokens" = 5 ∧
    update_user_fields "bob" [("Tokens", 7)] sheetBobCased =
      (sheetBobCased, false) := by
  decide

/-- Claim C7 (amended): in a ledger whose usernames form a case-insensitive
unique key, the balance read treats the username as a case-insensitive key
(every case-variant spelling reads the stored row), but the field write
locates rows by exact, case-sensitive match: for any spelling other than
the exact stored one the write addresses no row, fails, and leaves the
sheet unchanged. -/
theorem C7_read_caseInsensitive_write_exact (s : Sheet) (A : Rec)
    (u f : String) (upd : List (String × Int))
    (hwf : PairwiseKey s.rows) (hA : A ∈ s.rows)
    (hu : toLowerStr u = toLowerStr A.username) :
    readField s u f = getField A.fields f ∧
    (u ≠ A.username → update_user_fields u upd s = (s, false)) := by
  obtain ⟨l1, l2, hsplit⟩ := List.append_of_mem hA
  have hwf' : PairwiseKey (l1 ++ A :: l2) := by rw [← hsplit]; exact hwf
  have hcross : ∀ x ∈ l1, toLowerStr x.username ≠ toLowerStr A.username :=
    fun x hx => (List.pairwise_append.mp hwf').2.2 x hx A (List.mem_cons_self _ _)
  have hl2 : ∀ x ∈ l2, toLowerStr A.username ≠ toLowerStr x.username :=
    fun x hx =>
      (List.pairwise_cons.mp (List.pairwise_append.mp hwf').2.1).1 x hx
  have hl1f : ∀ x ∈ l1, (fun r => sameKey r.username u) x = false := by
    intro x hx
    show sameKey x.username u = false
    unfold sameKey
    apply beq_eq_false_iff_ne.mpr
    intro hEq
    exact hcross x hx (hEq.trans hu)
  have hAt : (fun r => sameKey r.username u) A = true := by
    show sameKey A.username u = true
    unfold sameKey
    rw [hu]
    exact beq_self_eq_true _
  constructor
  · unfold readField
    rw [hsplit, find_mid (fun r => sameKey r.username u) l1 l2 A hl1f hAt]
  · intro hne
    have hnone : updateRows u s.headers upd s.rows = none := by
      apply updateRows_eq_none
      intro r hr hEq
      rw [hsplit] at hr
      rcases List.mem_append.mp hr with hr | hr
      · exact hcross r hr (by rw [hEq, hu])
      · rcases List.mem_cons.mp hr with hr | hr
        · exact hne (by rw [← hEq, hr])
        · exact hl2 r hr (by rw [hEq, hu])
    unfold update_user_fields
    rw [hnone]

theorem C7_witness :
    PairwiseKey sheetBobCased.rows ∧ recBob ∈ sheetBobCased.rows ∧
    toLowerStr "BOB" = toLowerStr recBob.username ∧
    readField sheetBobCased "BOB" "Tokens" = getField recBob.fields "Tokens" ∧
    update_user_fields "BOB" [("Tokens", 7)] sheetBobCased =
      (sheetBobCased, false) :=
  ⟨by decide, by decide, by decide,
    (C7_read_caseInsensitive_write_exact sheetBobCased recBob "BOB" "Tokens"
      [("Tokens", 7)] (by decide) (by decide) (by decide)).1,
    (C7_read_caseInsensitive_write_exact sheetBobCased recBob "BOB" "Tokens"
      [("Tokens", 7)] (by decide) (by decide) (by decide)).2 (by decide)⟩

theorem upsert_upsert (db : List TokenRow) (uid tok ref : String) :
    upsert (upsert db uid tok ref) uid tok ref = upsert db uid tok ref := by
  induction db with
  | nil => simp [upsert]
  | cons r rest ih =>
      by_cases h : r.user_id = uid
      · simp [upsert, h]
      · simp [upsert, h, ih]

theorem find_upsert (db : List TokenRow) (uid tok ref : String) :
    (upsert db uid tok ref).find? (fun r => r.user_id == uid) =
      some ⟨uid, tok, ref⟩ := by
  induction db with
  | nil => simp [upsert, List.find?]
  | cons r rest ih =>
      by_cases h : r.user_id = uid
      · simp [upsert, h, List.find?]
      · simp [upsert, h, List.find?, ih]

theorem upsert_length_of_mem (db : List TokenRow) (uid tok ref : String)
    (h : ∃ r ∈ db, r.user_id = uid) :
    (upsert db uid tok ref).length = db.length := by
  induction db with
  | nil => simp at h
  | cons r rest ih =>
      by_cases hr : r.user_id = uid
      · simp [upsert, hr]
      · have hrest : ∃ x ∈ rest, x.user_id = uid := by
          obtain ⟨x, hx, hxe⟩ := h
          rcases List.mem_cons.mp hx with hEq | hmem
          · exact absurd (hEq ▸ hxe) hr
          · exact ⟨x, hmem, hxe⟩
        simp [upsert, hr, ih hrest]

theorem upsert_new (db : List TokenRow) (uid tok ref : String)
    (h : ∀ r ∈ db, r.user_id ≠ uid) :
    upsert db uid tok ref = db ++ [⟨uid, tok, ref⟩] := by
  induction db with
  | nil => simp [upsert]
  | cons r rest ih =>
      have hr := h r (List.mem_cons_self r rest)
      simp [upsert, hr, ih (fun x hx => h x (List.mem_cons_of_mem r hx))]

/-- Claim C8: the token-table upsert is idempotent — running it twice with
identical arguments leaves the table, as observed through `load_tokens`, in
the same state as running it once; the record for `user_id` afterwards
holds exactly the new token pair; an existing record is overwritten in
place (no row added); and a fresh `user_id` creates exactly one record. -/
theorem C8_upsert_idempotent (db : List TokenRow) (uid tok ref : String) :
    load_tokens (upsert (upsert db uid tok ref) uid tok ref) =
      load_tokens (upsert db uid tok ref) ∧
    (load_tokens (upsert db uid tok ref)).find? (fun r => r.user_id == uid) =
      some ⟨uid, tok, ref⟩ ∧
    ((∃ r ∈ db, r.user_id = uid) →
      (upsert db uid tok ref).length = db.length) ∧
    ((∀ r ∈ db, r.user_id ≠ uid) →
      upsert db uid tok ref = db ++ [⟨uid, tok, ref⟩]) :=
  ⟨upsert_upsert db uid tok ref, find_upsert db uid tok ref,
    upsert_length_of_mem db uid tok ref, upsert_new db uid tok ref⟩

theorem C8_witness :
    load_tokens (upsert (upsert db0 "u2" "a2" "r2") "u2" "a2" "r2") =
      load_tokens (upsert db0 "u2" "a2" "r2") ∧
    upsert db0 "u2" "a2" "r2" = db0 ++ [⟨"u2", "a2", "r2"⟩] :=
  ⟨(C8_upsert_idempotent db0 "u2" "a2" "r2").1,
    (C8_upsert_idempotent db0 "u2" "a2" "r2").2.2.2 (by decide)⟩

/-- Claim C10: whenever either end of a transfer (sender, or receiver after
normalization) reads a token balance of exactly 0 — in particular a user
present in the ledger with 0 tokens — the transfer takes the
"Could not fetch balances" branch and issues no write, even though every
read succeeded; a zero balance is indistinguishable from a failed read at
this interface. -/
theorem C10_zero_balance_conflated (gifter rarg : String) (n : Int) (s : Sheet)
    (hself : toLowerStr gifter ≠ normalizeRecv rarg)
    (hzero : readField s gifter "Tokens" = 0 ∨
      readField s (normalizeRecv rarg) "Tokens" = 0) :
    transfer_to_user gifter rarg n true s =
      (s, TransferResult.balanceUnavailable) := by
  rcases hzero with h | h <;> simp [transfer_to_user, get_user_info, hself, h]

theorem C10_witness :
    toLowerStr "alice" ≠ normalizeRecv "@Bob" ∧
    readField sheetZeroRecv "alice" "Tokens" = 500000 ∧
    readField sheetZeroRecv (normalizeRecv "@Bob") "Tokens" = 0 ∧
    transfer_to_user "alice" "@Bob" 3 true sheetZeroRecv =
      (sheetZeroRecv, TransferResult.balanceUnavailable) :=
  ⟨by decide, by decide, by decide,
    C10_zero_balance_conflated "alice" "@Bob" 3 sheetZeroRecv (by decide)
      (Or.inr (by decide))⟩

/-- Claim C1: over a well-formed ledger (usernames a case-insensitive
unique key, `Tokens` and `Tickets` header columns present) with the user's
tokens and tickets non-negative, for every quantity above 0: if
`buy_tickets` succeeds, the post-state tokens equal the pre-state tokens
minus `52000 * n`, the post-state tickets equal the pre-state tickets plus
`n`, and both post-state values stay non-negative. -/
theorem C1_buy_success_post (s s2 : Sheet) (username : String) (n t2 : Int)
    (hn : 0 < n)
    (hwf : PairwiseKey s.rows)
    (hTok : "Tokens" ∈ s.headers) (hTick : "Tickets" ∈ s.headers)
    (_hnn1 : 0 ≤ readField s username "Tokens")
    (hnn2 : 0 ≤ readField s username "Tickets")
    (hrun : buy_tickets username n true s = (s2, BuyResult.success t2)) :
    readField s2 username "Tokens" = readField s username "Tokens" - 52000 * n ∧
    readField s2 username "Tickets" = readField s username "Tickets" + n ∧
    0 ≤ readField s2 username "Tokens" ∧
    0 ≤ readField s2 username "Tickets" := by
  have hrun' :
      (if readField s username "Tokens" < 52000 * n then
        (s, BuyResult.insufficientFunds)
      else
        match update_user_fields username
            [("Tokens", readField s username "Tokens" - 52000 * n),
             ("Tickets", readField s username "Tickets" + n)] s with
        | (s3, true) => (s3, BuyResult.success (readField s username "Tickets" + n))
        | (s3, false) => (s3, BuyResult.updateFailed)) =
      (s2, BuyResult.success t2) := hrun
  by_cases hlt : readField s username "Tokens" < 52000 * n
  · rw [if_pos hlt] at hrun'
    simp at hrun'
  · rw [if_neg hlt] at hrun'
    rcases hupd : update_user_fields username
        [("Tokens", readField s username "Tokens" - 52000 * n),
         ("Tickets", readField s username "Tickets" + n)] s with ⟨s3, b⟩
    rw [hupd] at hrun'
    cases b
    · simp at hrun'
    · have hpair :
          (s3, BuyResult.success (readField s username "Tickets" + n)) =
            (s2, BuyResult.success t2) := hrun'
      have hs : s3 = s2 := ((Prod.mk.injEq _ _ _ _).mp hpair).1
      subst hs
      obtain ⟨hhdr, hwf2, F, hpre, hpost, hother⟩ :=
        update_spec s s3 username _ hwf hupd
      have happ : applyUpdates s.headers F
          [("Tokens", readField s username "Tokens" - 52000 * n),
           ("Tickets", readField s username "Tickets" + n)] =
          setField
            (setField F "Tokens" (readField s username "Tokens" - 52000 * n))
            "Tickets" (readField s username "Tickets" + n) := by
        simp [applyUpdates, hTok, hTick]
      have hTokenVal : readField s3 username "Tokens" =
          readField s username "Tokens" - 52000 * n := by
        rw [hpost "Tokens", happ,
          getField_setField_ne _ "Tickets" "Tokens" _ (by decide),
          getField_setField_self]
      have hTickVal : readField s3 username "Tickets" =
          readField s username "Tickets" + n := by
        rw [hpost "Tickets", happ, getField_setField_self]
      refine ⟨hTokenVal, hTickVal, ?_, ?_⟩
      · rw [hTokenVal]; omega
      · rw [hTickVal]; omega

theorem C1_witness :
    (0 : Int) < 1 ∧ PairwiseKey sheetRich.rows ∧
    "Tokens" ∈ sheetRich.headers ∧ "Tickets" ∈ sheetRich.headers ∧
    0 ≤ readField sheetRich "bob" "Tokens" ∧
    0 ≤ readField sheetRich "bob" "Tickets" ∧
    buy_tickets "bob" 1 true sheetRich =
      (sheetRichAfterBuy, BuyResult.success 1) ∧
    (readField sheetRichAfterBuy "bob" "Tokens" =
        readField sheetRich "bob" "Tokens" - 52000 * 1 ∧
      readField sheetRichAfterBuy "bob" "Tickets" =
        readField sheetRich "bob" "Tickets" + 1 ∧
      0 ≤ readField sheetRichAfterBuy "bob" "Tokens" ∧
      0 ≤ readField sheetRichAfterBuy "bob" "Tickets") :=
  ⟨by decide, by decide, by decide, by decide, by decide, by decide, by decide,
    C1_buy_success_post sheetRich sheetRichAfterBuy "bob" 1 1 (by decide)
      (by decide) (by decide) (by decide) (by decide) (by decide) (by decide)⟩

/-- Claim C3: over a well-formed ledger, for every transfer between two
users distinct as case-insensitive keys that succeeds: the sender's tokens
decrease by exactly the amount, the (normalized) receiver's tokens increase
by exactly the amount, and their sum is conserved — no tokens are created
or destroyed. -/
theorem C3_transfer_conservation (s s2 : Sheet) (gifter rarg : String)
    (n : Int)
    (hwf : PairwiseKey s.rows)
    (hTok : "Tokens" ∈ s.headers)
    (hne : toLowerStr gifter ≠ toLowerStr (normalizeRecv rarg))
    (hrun : transfer_to_user gifter rarg n true s =
      (s2, TransferResult.success)) :
    readField s2 gifter "Tokens" = readField s gifter "Tokens" - n ∧
    readField s2 (normalizeRecv rarg) "Tokens" =
      readField s (normalizeRecv rarg) "Tokens" + n ∧
    readField s2 gifter "Tokens" + readField s2 (normalizeRecv rarg) "Tokens" =
      readField s gifter "Tokens" + readField s (normalizeRecv rarg) "Tokens" := by
  have hread1 : get_user_info gifter "Tokens" true s =
      some (readField s gifter "Tokens") := rfl
  have hread2 : get_user_info (normalizeRecv rarg) "Tokens" true s =
      some (readField s (normalizeRecv rarg) "Tokens") := rfl
  unfold transfer_to_user at hrun
  cases hc : toLowerStr gifter == normalizeRecv rarg
  case true =>
    rw [hc] at hrun
    simp at hrun
  case false =>
    rw [hc] at hrun
    simp only [Bool.false_eq_true, if_false, hread1, hread2] at hrun
    cases hc2 : (readField s gifter "Tokens" == 0 ||
        readField s (normalizeRecv rarg) "Tokens" == 0)
    case true =>
      rw [hc2] at hrun
      simp at hrun
    case false =>
      rw [hc2] at hrun
      simp only [Bool.false_eq_true, if_false] at hrun
      by_cases hn0 : n ≤ 0
      · rw [if_pos hn0] at hrun
        simp at hrun
      · rw [if_neg hn0] at hrun
        by_cases hlt : readField s gifter "Tokens" < n
        · rw [if_pos hlt] at hrun
          simp at hrun
        · rw [if_neg hlt] at hrun
          rcases hupd1 : update_user_fields gifter
              [("Tokens", readField s gifter "Tokens" - n)] s with ⟨s1, b1⟩
          rw [hupd1] at hrun
          cases b1
          · simp at hrun
          · have hrun2 :
                (match update_user_fields (normalizeRecv rarg)
                    [("Tokens", readField s (normalizeRecv rarg) "Tokens" + n)]
                    s1 with
                  | (t, true) => (t, TransferResult.success)
                  | (t, false) => (t, TransferResult.updateFailed)) =
                (s2, TransferResult.success) := hrun
            rcases hupd2 : update_user_fields (normalizeRecv rarg)
                [("Tokens", readField s (normalizeRecv rarg) "Tokens" + n)] s1
                with ⟨s3, b2⟩
            rw [hupd2] at hrun2
            cases b2
            · simp at hrun2
            · have hpair : (s3, TransferResult.success) =
                  (s2, TransferResult.success) := hrun2
              have hs : s3 = s2 := ((Prod.mk.injEq _ _ _ _).mp hpair).1
              subst hs
              obtain ⟨hhdr1, hwf1, F1, hpre1, hpost1, hother1⟩ :=
                update_spec s s1 gifter _ hwf hupd1
              obtain ⟨hhdr2, hwf2, F2, hpre2, hpost2, hother2⟩ :=
                update_spec s1 s3 (normalizeRecv rarg) _ hwf1 hupd2
              have hTok1 : "Tokens" ∈ s1.headers := by rw [hhdr1]; exact hTok
              have happ1 : applyUpdates s.headers F1
                  [("Tokens", readField s gifter "Tokens" - n)] =
                  setField F1 "Tokens" (readField s gifter "Tokens" - n) := by
                simp [applyUpdates, hTok]
              have happ2 : applyUpdates s1.headers F2
                  [("Tokens", readField s (normalizeRecv rarg) "Tokens" + n)] =
                  setField F2 "Tokens"
                    (readField s (normalizeRecv rarg) "Tokens" + n) := by
                simp [applyUpdates, hTok1]
              have hsender : readField s3 gifter "Tokens" =
                  readField s gifter "Tokens" - n := by
                rw [hother2 gifter "Tokens" hne, hpost1 "Tokens", happ1,
                  getField_setField_self]
              have hrecv : readField s3 (normalizeRecv rarg) "Tokens" =
                  readField s (normalizeRecv rarg) "Tokens" + n := by
                rw [hpost2 "Tokens", happ2, getField_setField_self]
              exact ⟨hsender, hrecv, by rw [hsender, hrecv]; ring⟩

theorem C3_witness :
    PairwiseKey sheetTwo.rows ∧ "Tokens" ∈ sheetTwo.headers ∧
    toLowerStr "alice" ≠ toLowerStr (normalizeRecv "@Bob") ∧
    transfer_to_user "alice" "@Bob" 3 true sheetTwo =
      (sheetTwoAfter, TransferResult.success) ∧
    (readField sheetTwoAfter "alice" "Tokens" =
        readField sheetTwo "alice" "Tokens" - 3 ∧
      readField sheetTwoAfter (normalizeRecv "@Bob") "Tokens" =
        readField sheetTwo (normalizeRecv "@Bob") "Tokens" + 3 ∧
      readField sheetTwoAfter "alice" "Tokens" +
          readField sheetTwoAfter (normalizeRecv "@Bob") "Tokens" =
        readField sheetTwo "alice" "Tokens" +
          readField sheetTwo (normalizeRecv "@Bob") "Tokens") :=
  ⟨by decide, by decide, by decide, by decide,
    C3_transfer_conservation sheetTwo sheetTwoAfter "alice" "@Bob" 3
      (by decide) (by decide) (by decide) (by decide)⟩
